import Mathlib

/-!
# One-shot channel: shallow embedding and verification

This file embeds the one-shot channel of `src/one_shot_channel/src/lib.rs` in
Lean and proves the specified properties about it.

The Rust code stores the message in an `UnsafeCell<MaybeUninit<T>>` next to an
`AtomicBool` ready flag.  We model the slot by an `Option T` that tracks the
*logical* content: `some v` means the slot holds a valid, fully constructed
value `v` (written by `send` and not yet moved out), `none` means the slot
holds no valid value (never written, already read by `assume_init_read`, or
already destroyed).  The atomic flag is a `Bool`.

The public operations are modelled twice, at two granularities:

* pure primitive cell operations (`writeSlot`, `storeReadyRelease`,
  `swapReadyAcquire`, `readValue`, `is_ready`, `dropRun`) each mirroring one
  line of the Rust source, plus an event-emitting `Sender.send` and a
  snapshot-based receive loop `receiveLoop` that make the order of effects and
  the park/re-check behaviour explicit;

* a sequential execution machine `Exec` whose steps are the public operations
  (`split`, `send`, `is_ready`, `receive`).  It additionally tracks whether an
  unconsumed `Sender` / `Receiver` handle exists (Rust consumes each handle by
  value), and keeps a ledger of every value ever sent, every value returned by
  `receive`, and every value destructed by the channel's `Drop` glue (which
  runs both at final teardown and at the `*self = Self::new()` assignment
  inside `split`).  A blocked `receive` (flag still false, so the thread would
  park with nobody left to wake it in a sequential run) and the
  unreachable-by-contract undefined behaviours are modelled as `none`.
-/

set_option autoImplicit false

namespace OneShot

/-- The channel cell of the source: `message: UnsafeCell<MaybeUninit<T>>`
modelled by the logical content of the slot, and `ready: AtomicBool`. -/
structure Channel (T : Type) where
  message : Option T
  ready : Bool
deriving Repr, DecidableEq

/-- `Channel::new`: uninitialised slot (no valid value), flag false. -/
def Channel.new (T : Type) : Channel T :=
  { message := none, ready := false }

/-- The slot write of `send`: `(*self.channel.message.get()).write(message)`. -/
def Channel.writeSlot {T : Type} (c : Channel T) (v : T) : Channel T :=
  { c with message := some v }

/-- The flag publication of `send`: `self.channel.ready.store(true, Release)`. -/
def Channel.storeReadyRelease {T : Type} (c : Channel T) : Channel T :=
  { c with ready := true }

/-- The receive-loop condition: `self.channel.ready.swap(false, Acquire)`.
Returns the previous flag value and the updated cell. -/
def Channel.swapReadyAcquire {T : Type} (c : Channel T) : Bool × Channel T :=
  (c.ready, { c with ready := false })

/-- The slot read of `receive`: `(*self.channel.message.get()).assume_init_read()`.
Returns the logical slot content (`none` models the undefined behaviour of
reading an uninitialised slot, unreachable through the public contract) and
the cell with the value logically moved out. -/
def Channel.readValue {T : Type} (c : Channel T) : Option T × Channel T :=
  (c.message, { c with message := none })

/-- `Receiver::is_ready`: `self.channel.ready.load(Relaxed)`.  A pure read of
the flag. -/
def Receiver.is_ready {T : Type} (c : Channel T) : Bool :=
  c.ready

/-- `Drop for Channel`: `if *self.ready.get_mut() { assume_init_drop() }`.
Returns the list of values whose destructor this teardown runs: the slot
content when the flag is true, nothing when it is false. -/
def Channel.dropRun {T : Type} (c : Channel T) : List T :=
  if c.ready then c.message.toList else []

/-- The three observable effects of `Sender::send`, in source order: the slot
write, the release store of the flag, and the unconditional
`receiving_thread.unpark()`. -/
inductive SendEvent (T : Type) where
  | writeSlot (v : T)
  | storeReadyRelease
  | unpark
deriving Repr, DecidableEq

/-- First statement of `send`, with its emitted event. -/
def stepWrite {T : Type} (v : T) (c : Channel T) : Channel T × SendEvent T :=
  (c.writeSlot v, SendEvent.writeSlot v)

/-- Second statement of `send`, with its emitted event. -/
def stepStore {T : Type} (c : Channel T) : Channel T × SendEvent T :=
  (c.storeReadyRelease, SendEvent.storeReadyRelease)

/-- Third statement of `send`: `unpark` touches only the receiving thread,
never the cell; it is performed unconditionally. -/
def stepUnpark {T : Type} (c : Channel T) : Channel T × SendEvent T :=
  (c, SendEvent.unpark)

/-- `Sender::send(self, message)`: the three statements of the source body in
order, returning the final cell state and the emitted event trace. -/
def Sender.send {T : Type} (c : Channel T) (v : T) : Channel T × List (SendEvent T) :=
  let s1 := stepWrite v c
  let s2 := stepStore s1.1
  let s3 := stepUnpark s2.1
  (s3.1, [s1.2, s2.2, s3.2])

/-- One observable step of the receive loop: the thread either parks
(`thread::park()`) after the acquire swap returned false, or takes the slot
content after the swap returned true. -/
inductive RecvStep (T : Type) where
  | parked
  | took (v : Option T)
deriving Repr, DecidableEq

/-- The loop of `Receiver::receive`, run against the cell states the receiver
observes at its successive wake-ups (the first entry is the state at the
initial check; each later entry is the state seen after one wake-up, spurious
or not).  Each iteration performs the acquire swap on the observed state; on
false it parks and re-checks at the next wake-up, on true it reads the slot
and returns.  An exhausted list means the thread is still parked. -/
def receiveLoop {T : Type} : List (Channel T) → List (RecvStep T) × Option T
  | [] => ([], none)
  | c :: rest =>
    let sw := c.swapReadyAcquire
    if sw.1 then
      let rd := sw.2.readValue
      ([RecvStep.took rd.1], rd.1)
    else
      let cont := receiveLoop rest
      (RecvStep.parked :: cont.1, cont.2)

/-- The public operations of a channel use, as issued by the two owning
threads in the order the cell serialises them. -/
inductive Op (T : Type) where
  | split
  | send (v : T)
  | is_ready
  | receive
deriving Repr, DecidableEq

/-- Execution state of one channel object: the cell, whether an unconsumed
`Sender` / `Receiver` from the latest `split` exists, and the ledger of sent
values, values returned by `receive`, values destructed by channel-drop glue,
and `unpark` calls performed. -/
structure Exec (T : Type) where
  chan : Channel T
  senderAlive : Bool
  receiverAlive : Bool
  sent : List T
  received : List T
  finalized : List T
  unparks : Nat
deriving Repr, DecidableEq

/-- The state right after `Channel::new()`: empty cell, no handles issued. -/
def Exec.init (T : Type) : Exec T :=
  { chan := Channel.new T
    senderAlive := false
    receiverAlive := false
    sent := []
    received := []
    finalized := []
    unparks := 0 }

/-- One public operation.  `none` marks an execution the program cannot
perform: sending or receiving on a consumed handle (the handle was taken by
value), a `receive` whose swap found the flag false (the thread parks and, in
a sequential run, nothing is left to wake it), and the contract-unreachable
read of an uninitialised slot. -/
def Exec.step {T : Type} (e : Exec T) : Op T → Option (Exec T)
  | Op.split =>
    -- `*self = Self::new()` first drops the previous channel value, running
    -- `Drop for Channel` on it, then installs a fresh cell; the borrow rules
    -- guarantee no handle from an earlier split is still usable.
    some { e with
      chan := Channel.new T
      senderAlive := true
      receiverAlive := true
      finalized := e.finalized ++ e.chan.dropRun }
  | Op.send v =>
    if e.senderAlive then
      let r := Sender.send e.chan v
      some { e with
        chan := r.1
        senderAlive := false
        sent := e.sent ++ [v]
        unparks := e.unparks + 1 }
    else none
  | Op.is_ready =>
    if e.receiverAlive then some e else none
  | Op.receive =>
    if e.receiverAlive then
      let sw := e.chan.swapReadyAcquire
      if sw.1 then
        let rd := sw.2.readValue
        match rd.1 with
        | some v =>
          some { e with
            chan := rd.2
            receiverAlive := false
            received := e.received ++ [v] }
        | none => none
      else none
    else none

/-- Run a list of operations from a state. -/
def Exec.run {T : Type} (e : Exec T) : List (Op T) → Option (Exec T)
  | [] => some e
  | op :: ops => (e.step op).bind (fun e2 => Exec.run e2 ops)

/-- The states reachable from a fresh channel through the public operations. -/
inductive Reachable {T : Type} : Exec T → Prop where
  | init : Reachable (Exec.init T)
  | step {e e2 : Exec T} {op : Op T} :
      Reachable e → e.step op = some e2 → Reachable e2

/-- The protocol invariant: the slot holds a valid value exactly when the flag
is true; a live sender implies the slot is still untouched (so `send`'s write
never overwrites a live value); and the ledger balances — every sent value is
accounted for exactly once, among the destructor runs performed so far, the
values handed out by `receive`, and the value currently in the slot. -/
def Exec.inv {T : Type} (e : Exec T) : Prop :=
  e.chan.ready = e.chan.message.isSome ∧
  (e.senderAlive = true → e.chan.message = none) ∧
  (e.sent : Multiset T) =
    (e.finalized : Multiset T) + (e.received : Multiset T) +
      (e.chan.message.toList : Multiset T)


/-- Auxiliary state used to instantiate the reachability theorems: the state
right after a first `split`. -/
def splitState : Exec Nat :=
  { chan := Channel.new Nat
    senderAlive := true
    receiverAlive := true
    sent := []
    received := []
    finalized := []
    unparks := 0 }

/-- Auxiliary state used to instantiate the reachability theorems: the state
after `split` followed by `send 3`. -/
def sentState : Exec Nat :=
  { chan := { message := some 3, ready := true }
    senderAlive := false
    receiverAlive := true
    sent := [3]
    received := []
    finalized := []
    unparks := 1 }

theorem inv_init (T : Type) : (Exec.init T).inv := by
  refine ⟨rfl, fun h => by simp [Exec.init] at h, ?_⟩
  simp [Exec.init, Channel.new]

theorem inv_step {T : Type} {e e2 : Exec T} {op : Op T}
    (hinv : e.inv) (hstep : e.step op = some e2) : e2.inv := by
  obtain ⟨h1, h2, h3⟩ := hinv
  cases op with
  | split =>
    simp only [Exec.step, Option.some.injEq] at hstep
    subst hstep
    refine ⟨rfl, fun _ => rfl, ?_⟩
    cases hm : e.chan.message with
    | none =>
      rw [hm] at h1 h3
      simp only [Option.isSome_none] at h1
      simp only [Channel.new, Channel.dropRun, h1, Bool.false_eq_true, if_false,
        Option.toList_none, Multiset.coe_nil, add_zero, List.append_nil]
      simpa using h3
    | some v =>
      rw [hm] at h1 h3
      simp only [Option.isSome_some] at h1
      simp only [Channel.new, Channel.dropRun, h1, if_true, hm,
        Option.toList_some, Option.toList_none, Multiset.coe_nil, add_zero] at h3 ⊢
      rw [h3, ← Multiset.coe_add]
      abel
  | send v =>
    cases hsa : e.senderAlive with
    | false => simp [Exec.step, hsa] at hstep
    | true =>
      have hm : e.chan.message = none := h2 hsa
      simp only [Exec.step, hsa, if_true, Option.some.injEq,
        Sender.send, stepWrite, stepStore, stepUnpark,
        Channel.writeSlot, Channel.storeReadyRelease] at hstep
      subst hstep
      refine ⟨rfl, fun h => by simp at h, ?_⟩
      rw [hm] at h3
      simp only [Option.toList_none, Multiset.coe_nil, add_zero] at h3
      simp only [Option.toList_some]
      rw [← Multiset.coe_add, h3]
  | is_ready =>
    cases hra : e.receiverAlive with
    | false => simp [Exec.step, hra] at hstep
    | true =>
      simp only [Exec.step, hra, if_true, Option.some.injEq] at hstep
      subst hstep
      exact ⟨h1, h2, h3⟩
  | receive =>
    cases hra : e.receiverAlive with
    | false => simp [Exec.step, hra] at hstep
    | true =>
      cases hr : e.chan.ready with
      | false =>
        simp [Exec.step, Channel.swapReadyAcquire, hra, hr] at hstep
      | true =>
        cases hm : e.chan.message with
        | none =>
          simp [Exec.step, Channel.swapReadyAcquire, Channel.readValue,
            hra, hr, hm] at hstep
        | some v =>
          simp only [Exec.step, Channel.swapReadyAcquire, Channel.readValue,
            hra, hr, hm, if_true, Option.some.injEq] at hstep
          subst hstep
          refine ⟨rfl, fun _ => rfl, ?_⟩
          rw [hm] at h3
          simp only [Option.toList_some, Option.toList_none,
            Multiset.coe_nil, add_zero] at h3 ⊢
          rw [h3, ← Multiset.coe_add]
          abel

theorem reachable_inv {T : Type} {e : Exec T} (h : Reachable e) : e.inv := by
  induction h with
  | init => exact inv_init T
  | step _ hstep ih => exact inv_step ih hstep

theorem reachable_splitState : Reachable splitState := by
  have h1 : (Exec.init Nat).step Op.split = some splitState := by rfl
  exact Reachable.step Reachable.init h1

theorem reachable_sentState : Reachable sentState := by
  have h2 : splitState.step (Op.send 3) = some sentState := by rfl
  exact Reachable.step reachable_splitState h2

/-- C1: on a freshly constructed and split channel, `send v` followed by
`receive` succeeds and `receive` returns exactly the value `v` that was
sent. -/
theorem send_then_receive_returns_sent (T : Type) (v : T) :
    ∃ e : Exec T,
      Exec.run (Exec.init T) [Op.split, Op.send v, Op.receive] = some e ∧
      e.received = [v] := by
  exact ⟨_, rfl, rfl⟩

/-- C2: in every reachable state, destroying the channel runs the stored
value's destructor exactly once when the ready flag is true and zero times
when it is false; and over the whole history every sent value is finalized
exactly once — by `receive` handing it out or by channel-drop glue — never
both and never twice (the multiset of sent values equals the multiset of
drop-finalized values, teardown included, plus the received ones). -/
theorem teardown_finalizes_exactly_pending {T : Type} (e : Exec T)
    (h : Reachable e) :
    (e.chan.dropRun).length = (if e.chan.ready then 1 else 0) ∧
    (e.sent : Multiset T) =
      ((e.finalized ++ e.chan.dropRun : List T) : Multiset T) +
        (e.received : Multiset T) := by
  obtain ⟨h1, h2, h3⟩ := reachable_inv h
  cases hm : e.chan.message with
  | none =>
    rw [hm] at h1 h3
    simp only [Option.isSome_none] at h1
    constructor
    · simp [Channel.dropRun, h1]
    · simp only [Channel.dropRun, h1, Bool.false_eq_true, if_false,
        List.append_nil]
      simpa using h3
  | some v =>
    rw [hm] at h1 h3
    simp only [Option.isSome_some] at h1
    constructor
    · simp [Channel.dropRun, h1, hm]
    · simp only [Channel.dropRun, h1, if_true, hm, Option.toList_some] at h3 ⊢
      rw [h3, ← Multiset.coe_add]
      abel

/-- C2 witness: the theorem instantiated at the reachable state reached by
`split` then `send 3`. -/
theorem teardown_finalizes_exactly_pending_witness :
    (sentState.chan.dropRun).length = (if sentState.chan.ready then 1 else 0) ∧
    (sentState.sent : Multiset Nat) =
      ((sentState.finalized ++ sentState.chan.dropRun : List Nat) : Multiset Nat) +
        (sentState.received : Multiset Nat) :=
  teardown_finalizes_exactly_pending sentState reachable_sentState

/-- C3: in every state reachable through the public operations, the slot
holds a valid, fully constructed value exactly when the ready flag is true. -/
theorem ready_iff_slot_valid {T : Type} (e : Exec T) (h : Reachable e) :
    e.chan.ready = true ↔ e.chan.message.isSome = true := by
  obtain ⟨h1, _, _⟩ := reachable_inv h
  rw [h1]

/-- C3 witness: the theorem instantiated at the reachable state reached by
`split` then `send 3`, where both sides are true. -/
theorem ready_iff_slot_valid_witness :
    sentState.chan.ready = true ↔ sentState.chan.message.isSome = true :=
  ready_iff_slot_valid sentState reachable_sentState

/-- C4: the receive loop returns a value only if the acquire swap of the
ready flag returned true at some wake-up; at every wake-up (spurious
included) where the flag is still false the thread parks again and never
reads the slot, so if the flag is false at every observed wake-up the loop
parks each time and returns nothing. -/
theorem receive_returns_only_after_true_swap (T : Type) :
    (∀ snaps : List (Channel T), ((receiveLoop snaps).2).isSome = true →
        ∃ c ∈ snaps, c.ready = true) ∧
    (∀ snaps : List (Channel T), (∀ c ∈ snaps, c.ready = false) →
        receiveLoop snaps =
          (snaps.map (fun _ => RecvStep.parked), none)) := by
  constructor
  · intro snaps
    induction snaps with
    | nil => intro h; simp [receiveLoop] at h
    | cons c rest ih =>
      intro h
      cases hr : c.ready with
      | true => exact ⟨c, List.mem_cons_self c rest, hr⟩
      | false =>
        simp only [receiveLoop, Channel.swapReadyAcquire, hr,
          Bool.false_eq_true, if_false] at h
        obtain ⟨c2, hmem, hc2⟩ := ih h
        exact ⟨c2, List.mem_cons_of_mem c hmem, hc2⟩
  · intro snaps
    induction snaps with
    | nil => intro _; rfl
    | cons c rest ih =>
      intro h
      have hr : c.ready = false := h c (List.mem_cons_self c rest)
      have hrest : ∀ c2 ∈ rest, c2.ready = false :=
        fun c2 hm => h c2 (List.mem_cons_of_mem c hm)
      simp only [receiveLoop, Channel.swapReadyAcquire, hr,
        Bool.false_eq_true, if_false, ih hrest, List.map_cons]

/-- C4 witness: one wake-up with the flag set finds a value; a run of
wake-ups that all see the flag false parks at each one and returns
nothing. -/
theorem receive_returns_only_after_true_swap_witness :
    (∃ c ∈ [({ message := some 5, ready := true } : Channel Nat)],
        c.ready = true) ∧
    receiveLoop
        [({ message := none, ready := false } : Channel Nat),
         ({ message := none, ready := false } : Channel Nat)] =
      ([RecvStep.parked, RecvStep.parked], none) :=
  ⟨(receive_returns_only_after_true_swap Nat).1 _ (by decide),
   (receive_returns_only_after_true_swap Nat).2 _ (by decide)⟩

/-- C5: `send` performs exactly the three statements of its body in source
order — write the value into the slot, store true into the ready flag with
release ordering, unpark the receiving thread unconditionally — leaving the
cell with the value in the slot and the flag set, and returns nothing
else. -/
theorem send_event_order (T : Type) (c : Channel T) (v : T) :
    Sender.send c v =
      ({ message := some v, ready := true },
       [SendEvent.writeSlot v, SendEvent.storeReadyRelease,
        SendEvent.unpark]) := rfl

/-- C6: `split` on any channel state — fresh or previously used — resets the
cell to the empty state (no valid slot value, ready flag false) and hands out
exactly one live sender and one live receiver. -/
theorem split_resets_channel (T : Type) (e : Exec T) :
    ∃ e2 : Exec T, e.step Op.split = some e2 ∧
      e2.chan.message = none ∧ e2.chan.ready = false ∧
      e2.senderAlive = true ∧ e2.receiverAlive = true :=
  ⟨_, rfl, rfl, rfl, rfl, rfl⟩

/-- C7: `is_ready` only reads the ready flag: any number of `is_ready`
operations leaves the execution state unchanged, it returns exactly the
flag (so it never clears it), it returns false on a fresh cell and true on
a cell on which `send` has completed. -/
theorem is_ready_pure_observer (T : Type) :
    (∀ (e : Exec T) (n : Nat), e.receiverAlive = true →
        Exec.run e (List.replicate n Op.is_ready) = some e) ∧
    (∀ c : Channel T, Receiver.is_ready c = c.ready) ∧
    Receiver.is_ready (Channel.new T) = false ∧
    (∀ (c : Channel T) (v : T),
        Receiver.is_ready (Sender.send c v).1 = true) := by
  refine ⟨?_, fun c => rfl, rfl, fun c v => rfl⟩
  intro e n hra
  induction n with
  | zero => rfl
  | succ n ih =>
    simp only [List.replicate_succ, Exec.run, Exec.step, hra, if_true,
      Option.some_bind]
    exact ih

/-- C7 witness: two consecutive `is_ready` probes on the freshly split state
leave it unchanged. -/
theorem is_ready_pure_observer_witness :
    splitState.receiverAlive = true ∧
    Exec.run splitState (List.replicate 2 Op.is_ready) = some splitState :=
  ⟨rfl, (is_ready_pure_observer Nat).1 splitState 2 rfl⟩

/-- C8: when `send v` has already completed, `is_ready` returns true, and
the receive loop takes the value at its very first check — it returns `v`
with no park step at all. -/
theorem ready_send_receive_immediate (T : Type) (c : Channel T) (v : T) :
    Receiver.is_ready (Sender.send c v).1 = true ∧
    receiveLoop [(Sender.send c v).1] =
      ([RecvStep.took (some v)], some v) :=
  ⟨rfl, rfl⟩

/-- C9: re-splitting while the ready flag is true and the slot holds an
unreceived value runs that value's destructor exactly once (the drop of the
old channel state performed by the assignment inside `split`) and then
resets the cell to empty. -/
theorem resplit_finalizes_pending_once {T : Type} (e : Exec T) (v : T)
    (hm : e.chan.message = some v) (hr : e.chan.ready = true) :
    ∃ e2 : Exec T, e.step Op.split = some e2 ∧
      e2.finalized = e.finalized ++ [v] ∧
      e2.chan.message = none ∧ e2.chan.ready = false := by
  refine ⟨_, rfl, ?_, rfl, rfl⟩
  simp [Exec.step, Channel.dropRun, hm, hr]

/-- C9 witness: re-splitting the reachable state holding the unreceived
value 3 finalizes exactly that value. -/
theorem resplit_finalizes_pending_once_witness :
    sentState.chan.message = some 3 ∧ sentState.chan.ready = true ∧
    (∃ e2 : Exec Nat, sentState.step Op.split = some e2 ∧
      e2.finalized = sentState.finalized ++ [3] ∧
      e2.chan.message = none ∧ e2.chan.ready = false) :=
  ⟨rfl, rfl, resplit_finalizes_pending_once sentState 3 rfl rfl⟩

/-- C10: `split` issues exactly one live sender and one live receiver, and
each handle is consumed by its single operation: after a successful `send`
the sender is dead and any further `send` is impossible, and after a
successful `receive` the receiver is dead and any further `receive` is
impossible. -/
theorem handles_single_use (T : Type) :
    (∀ e : Exec T, ∃ e2 : Exec T, e.step Op.split = some e2 ∧
        e2.senderAlive = true ∧ e2.receiverAlive = true) ∧
    (∀ (e e2 : Exec T) (v : T), e.step (Op.send v) = some e2 →
        e2.senderAlive = false ∧ ∀ w : T, e2.step (Op.send w) = none) ∧
    (∀ (e e2 : Exec T), e.step Op.receive = some e2 →
        e2.receiverAlive = false ∧ e2.step Op.receive = none) := by
  refine ⟨fun e => ⟨_, rfl, And.intro rfl rfl⟩, ?_, ?_⟩
  · intro e e2 v hstep
    cases hsa : e.senderAlive with
    | false => simp [Exec.step, hsa] at hstep
    | true =>
      simp only [Exec.step, hsa, if_true, Option.some.injEq] at hstep
      subst hstep
      exact ⟨rfl, fun w => rfl⟩
  · intro e e2 hstep
    cases hra : e.receiverAlive with
    | false => simp [Exec.step, hra] at hstep
    | true =>
      cases hr : e.chan.ready with
      | false =>
        simp [Exec.step, Channel.swapReadyAcquire, hra, hr] at hstep
      | true =>
        cases hm : e.chan.message with
        | none =>
          simp [Exec.step, Channel.swapReadyAcquire, Channel.readValue,
            hra, hr, hm] at hstep
        | some v =>
          simp only [Exec.step, Channel.swapReadyAcquire, Channel.readValue,
            hra, hr, hm, if_true, Option.some.injEq] at hstep
          subst hstep
          exact ⟨rfl, rfl⟩

/-- C10 witness: sending 3 from the freshly split state consumes the sender,
and a second send on the resulting state is impossible. -/
theorem handles_single_use_witness :
    splitState.step (Op.send 3) = some sentState ∧
    sentState.senderAlive = false ∧
    (∀ w : Nat, sentState.step (Op.send w) = none) :=
  ⟨rfl, (handles_single_use Nat).2.1 splitState sentState 3 rfl⟩
end OneShot
